import Mathlib

/-! NovaCRT: the bridging header `Sources/NovaCRT/crt.h`

The header consists of an include guard (`cruntime_h`) around two function
declarations, `swift_getTypeByMangledNameInContext` and `swift_allocObject`.
Both end in `;`: the definitions live in the Swift runtime, outside the
repository.

The development below transcribes the two declarations as data (`FunDecl`),
gives the values of the C types they mention (`hasType`), says when a call is
well-typed against a declaration (`wellTyped`) and what it means for an
external implementation to respect a declaration (`Implements`).
-/

namespace NovaCRT

/-! ## Declarations as data -/

/-- Clang nullability annotation of a pointer type. The header only ever
writes `_Nullable`; the other two are what a pointer could have carried. -/
inductive Nullability where
  | nullable
  | nonnull
  | unspecified
  deriving DecidableEq, Repr

/-- C types as they can be spelled with the keywords the header uses.
`pointer t c n` is a pointer to `t`, where `c` records a `const` qualifier on
the pointee and `n` the nullability annotation of the pointer itself:
`const void * _Nullable` is `pointer void true nullable`. -/
inductive CType where
  | void
  | char
  | int
  | unsignedInt
  | pointer (pointee : CType) (pointeeConst : Bool) (nullability : Nullability)
  deriving DecidableEq, Repr

/-- One parameter of a function declaration: its type and its name. -/
structure Param where
  ty : CType
  name : String
  deriving DecidableEq, Repr

/-- Function declaration. `body` is `none` for a declaration that ends in
`;`, and otherwise holds the identifiers the compound statement mentions. -/
structure FunDecl where
  ret : CType
  name : String
  params : List Param
  body : Option (List String)
  deriving DecidableEq, Repr

/-- `const void * _Nullable` -/
def constVoidPtrNullable : CType :=
  CType.pointer CType.void true Nullability.nullable

/-- `const char * _Nullable` -/
def constCharPtrNullable : CType :=
  CType.pointer CType.char true Nullability.nullable

/-- `const void * _Nullable const * _Nullable` -/
def constVoidPtrNullableConstPtrNullable : CType :=
  CType.pointer constVoidPtrNullable true Nullability.nullable

/-- Lines 11-15 of `crt.h`. -/
def swift_getTypeByMangledNameInContext : FunDecl :=
  FunDecl.mk constVoidPtrNullable "swift_getTypeByMangledNameInContext"
    [ Param.mk constCharPtrNullable "typeNameStart",
      Param.mk CType.int "typeNameLength",
      Param.mk constVoidPtrNullable "context",
      Param.mk constVoidPtrNullableConstPtrNullable "genericArgs" ]
    none

/-- Lines 17-20 of `crt.h`. -/
def swift_allocObject : FunDecl :=
  FunDecl.mk constVoidPtrNullable "swift_allocObject"
    [ Param.mk constVoidPtrNullable "type",
      Param.mk CType.int "requiredSize",
      Param.mk CType.int "requiredAlignmentMask" ]
    none

/-- The declarations between `#define cruntime_h` and `#endif`, in order. -/
def cruntime_h : List FunDecl :=
  [swift_getTypeByMangledNameInContext, swift_allocObject]

/-- Identifiers a declaration mentions besides its own name: its parameter
names and whatever its body mentions. The types are spelled with keywords
only and contribute none. -/
def FunDecl.mentions (d : FunDecl) : List String :=
  d.params.map Param.name ++ d.body.getD []

/-- Declaration `d` refers to declaration `e` when `e`'s name occurs among
the identifiers `d` mentions. -/
def FunDecl.refersTo (d e : FunDecl) : Bool :=
  decide (e.name ∈ d.mentions)

/-- A declaration is a definition when it has a body. -/
def FunDecl.isDefinition (d : FunDecl) : Bool :=
  d.body.isSome

/-- Type of the parameter called `name`, if the declaration has one. -/
def FunDecl.paramType (d : FunDecl) (name : String) : Option CType :=
  (d.params.find? (fun p => p.name == name)).map Param.ty

/-- The pointer types that carry the `_Nullable` annotation. -/
def CType.isNullablePointer : CType → Bool
  | CType.pointer _ _ Nullability.nullable => true
  | _ => false

/-- The integer types, the ones a status or error code would have. -/
def CType.isInteger : CType → Bool
  | CType.char => true
  | CType.int => true
  | CType.unsignedInt => true
  | _ => false

/-- A type through which a callee can write back into the caller's memory: a
pointer whose pointee is not `const`, at any level of indirection. -/
def CType.writable : CType → Bool
  | CType.pointer t c _ => !c || t.writable
  | _ => false

/-! ## Values, well-typed calls, external definitions

The width of `int` is fixed by the target, not by the header, so it is a
parameter `intBits` throughout. -/

/-- Largest `int` when `int` has `intBits` bits. -/
def INT_MAX (intBits : Nat) : Int := ((2 ^ (intBits - 1) : Nat) : Int) - 1

/-- Smallest `int` when `int` has `intBits` bits (two's complement). -/
def INT_MIN (intBits : Nat) : Int := -((2 ^ (intBits - 1) : Nat) : Int)

/-- Largest `unsigned int` when `int` has `intBits` bits. -/
def UINT_MAX (intBits : Nat) : Int := ((2 ^ intBits : Nat) : Int) - 1

/-- Pointer value: null, or a non-null pointer identified by `a`. What it
points to belongs to the runtime and is not modelled. -/
inductive PtrVal where
  | null
  | addr (a : Nat)
  deriving DecidableEq, Repr

/-- Argument or result of a call: a mathematical integer or a pointer. -/
inductive CValue where
  | int (n : Int)
  | ptr (p : PtrVal)
  deriving DecidableEq, Repr

/-- Whether value `v` can be passed or returned at type `t`. An `int` is any
integer of the signed range, an `unsigned int` any of the unsigned range; a
pointer type takes every non-null pointer, and null unless it is `_Nonnull`.
`void` has no values, and `char` is never passed by value in the header. -/
def hasType (intBits : Nat) : CType → CValue → Bool
  | CType.int, CValue.int n => decide (INT_MIN intBits ≤ n ∧ n ≤ INT_MAX intBits)
  | CType.unsignedInt, CValue.int n => decide (0 ≤ n ∧ n ≤ UINT_MAX intBits)
  | CType.pointer _ _ nb, CValue.ptr PtrVal.null => decide (nb ≠ Nullability.nonnull)
  | CType.pointer _ _ _, CValue.ptr (PtrVal.addr _) => true
  | _, _ => false

/-- Arguments match parameters one for one, each at its parameter's type. -/
def wellTypedArgs (intBits : Nat) : List Param → List CValue → Bool
  | [], [] => true
  | p :: ps, v :: vs => hasType intBits p.ty v && wellTypedArgs intBits ps vs
  | _, _ => false

/-- A call of `d` with arguments `args` is well-typed. -/
def wellTyped (intBits : Nat) (d : FunDecl) (args : List CValue) : Bool :=
  wellTypedArgs intBits d.params args

/-- An external definition of a declared function: from the state of the
runtime and the arguments to a result and the state afterwards. -/
abbrev Extern (σ : Type) := σ → List CValue → CValue × σ

/-- External definition `f` respects declaration `d`: on every well-typed
call, in every state, its result has the declared return type. -/
def Implements {σ : Type} (intBits : Nat) (d : FunDecl) (f : Extern σ) : Prop :=
  ∀ (s : σ) (args : List CValue),
    wellTyped intBits d args = true → hasType intBits d.ret (f s args).1 = true

/-- The external definition that answers null exactly when `nullWhen` says
so, and otherwise some non-null pointer; it leaves the state alone. -/
def nullExactlyWhen {σ : Type} (nullWhen : σ → List CValue → Bool) : Extern σ :=
  fun s args =>
    (if nullWhen s args then CValue.ptr PtrVal.null else CValue.ptr (PtrVal.addr 1), s)

/-! ## Helper lemmas -/

theorem hasType_nullablePointer (intBits : Nat) (t : CType) (v : CValue)
    (ht : t.isNullablePointer = true) :
    hasType intBits t v = true ↔ ∃ p, v = CValue.ptr p := by
  cases t with
  | pointer t c nb =>
    cases nb <;> simp [CType.isNullablePointer] at ht
    cases v with
    | int n => simp [hasType]
    | ptr p => cases p <;> simp [hasType]
  | _ => simp [CType.isNullablePointer] at ht

theorem hasType_int (intBits : Nat) (v : CValue) :
    hasType intBits CType.int v = true ↔
      ∃ n, v = CValue.int n ∧ INT_MIN intBits ≤ n ∧ n ≤ INT_MAX intBits := by
  cases v with
  | int n => simp [hasType]
  | ptr p => simp [hasType]

theorem INT_MIN_neg (intBits : Nat) : INT_MIN intBits ≤ -1 := by
  have h : 1 ≤ 2 ^ (intBits - 1) := Nat.one_le_two_pow
  unfold INT_MIN
  omega

theorem INT_MAX_nonneg (intBits : Nat) : 0 ≤ INT_MAX intBits := by
  have h : 1 ≤ 2 ^ (intBits - 1) := Nat.one_le_two_pow
  unfold INT_MAX
  omega

theorem ptr_null_or_addr (v : CValue) (h : ∃ p, v = CValue.ptr p) :
    v = CValue.ptr PtrVal.null ∨ ∃ a, v = CValue.ptr (PtrVal.addr a) := by
  obtain ⟨p, rfl⟩ := h
  cases p with
  | null => exact Or.inl rfl
  | addr a => exact Or.inr ⟨a, rfl⟩

theorem nullExactlyWhen_implements {σ : Type} (intBits : Nat) (d : FunDecl)
    (hd : d.ret.isNullablePointer = true) (nullWhen : σ → List CValue → Bool) :
    Implements intBits d (nullExactlyWhen nullWhen) := by
  intro s args _
  rw [hasType_nullablePointer intBits d.ret _ hd]
  unfold nullExactlyWhen
  split <;> exact ⟨_, rfl⟩

theorem nullExactlyWhen_null {σ : Type} (nullWhen : σ → List CValue → Bool)
    (s : σ) (args : List CValue) :
    (nullExactlyWhen nullWhen s args).1 = CValue.ptr PtrVal.null ↔
      nullWhen s args = true := by
  unfold nullExactlyWhen
  cases nullWhen s args <;> simp

/-! ## The header's contract -/

/-- C1: the header declares exactly two functions, named
`swift_getTypeByMangledNameInContext` and `swift_allocObject`; neither
declaration has a body, and neither mentions the other. -/
theorem cruntime_h_two_unrelated_declarations :
    cruntime_h.length = 2 ∧
    cruntime_h.map FunDecl.name =
      ["swift_getTypeByMangledNameInContext", "swift_allocObject"] ∧
    cruntime_h.all (fun d => !d.isDefinition) = true ∧
    cruntime_h.all (fun d => d.body == none) = true ∧
    swift_getTypeByMangledNameInContext.refersTo swift_allocObject = false ∧
    swift_allocObject.refersTo swift_getTypeByMangledNameInContext = false := by
  refine ⟨rfl, rfl, rfl, rfl, ?_, ?_⟩ <;> decide

/-- C2: `swift_getTypeByMangledNameInContext` takes a nullable `const char`
pointer, an `int`, a nullable `const void` pointer and a nullable pointer to
nullable `const void` pointers, and returns a nullable `const void` pointer.
Every call with pointer arguments of any kind (null included) and a length in
the range of `int` is well-typed, and under every external definition that
respects the declaration its result is null or a non-null pointer. -/
theorem swift_getTypeByMangledNameInContext_contract {σ : Type} (intBits : Nat)
    (f : Extern σ) (hf : Implements intBits swift_getTypeByMangledNameInContext f)
    (s : σ) (typeNameStart context genericArgs : PtrVal) (typeNameLength : Int)
    (hlen : INT_MIN intBits ≤ typeNameLength ∧ typeNameLength ≤ INT_MAX intBits) :
    swift_getTypeByMangledNameInContext.params.map Param.ty =
      [ CType.pointer CType.char true Nullability.nullable,
        CType.int,
        CType.pointer CType.void true Nullability.nullable,
        CType.pointer (CType.pointer CType.void true Nullability.nullable) true
          Nullability.nullable ] ∧
    swift_getTypeByMangledNameInContext.ret =
      CType.pointer CType.void true Nullability.nullable ∧
    wellTyped intBits swift_getTypeByMangledNameInContext
      [CValue.ptr typeNameStart, CValue.int typeNameLength, CValue.ptr context,
        CValue.ptr genericArgs] = true ∧
    ((f s [CValue.ptr typeNameStart, CValue.int typeNameLength, CValue.ptr context,
        CValue.ptr genericArgs]).1 = CValue.ptr PtrVal.null ∨
      ∃ a, (f s [CValue.ptr typeNameStart, CValue.int typeNameLength,
        CValue.ptr context, CValue.ptr genericArgs]).1 = CValue.ptr (PtrVal.addr a)) := by
  have hwt : wellTyped intBits swift_getTypeByMangledNameInContext
      [CValue.ptr typeNameStart, CValue.int typeNameLength, CValue.ptr context,
        CValue.ptr genericArgs] = true := by
    cases typeNameStart <;> cases context <;> cases genericArgs <;>
      simp [wellTyped, wellTypedArgs, swift_getTypeByMangledNameInContext, hasType,
        constCharPtrNullable, constVoidPtrNullable,
        constVoidPtrNullableConstPtrNullable, hlen]
  refine ⟨rfl, rfl, hwt, ?_⟩
  exact ptr_null_or_addr _
    ((hasType_nullablePointer intBits swift_getTypeByMangledNameInContext.ret _ rfl).1
      (hf s _ hwt))

/-- Witness for C2: on a 32-bit `int`, the definition that always answers
null respects the declaration, and the call with a null name of length 0, a
null context and null generic arguments is well-typed and yields null or a
pointer. -/
theorem swift_getTypeByMangledNameInContext_contract_witness :
    wellTyped 32 swift_getTypeByMangledNameInContext
      [CValue.ptr PtrVal.null, CValue.int 0, CValue.ptr PtrVal.null,
        CValue.ptr PtrVal.null] = true ∧
    ((nullExactlyWhen (fun (_ : Unit) _ => true) ()
        [CValue.ptr PtrVal.null, CValue.int 0, CValue.ptr PtrVal.null,
          CValue.ptr PtrVal.null]).1 = CValue.ptr PtrVal.null ∨
      ∃ a, (nullExactlyWhen (fun (_ : Unit) _ => true) ()
        [CValue.ptr PtrVal.null, CValue.int 0, CValue.ptr PtrVal.null,
          CValue.ptr PtrVal.null]).1 = CValue.ptr (PtrVal.addr a)) :=
  (swift_getTypeByMangledNameInContext_contract 32
    (nullExactlyWhen (fun (_ : Unit) _ => true))
    (nullExactlyWhen_implements 32 swift_getTypeByMangledNameInContext rfl _)
    () PtrVal.null PtrVal.null PtrVal.null 0 (by decide)).2.2

/-- C3: `swift_allocObject` takes a nullable `const void` pointer and two
`int`s, and returns a nullable `const void` pointer. Every call with a type
descriptor of any kind (null included) and a size and mask in the range of
`int` is well-typed, and under every external definition that respects the
declaration its result is null or a non-null pointer. -/
theorem swift_allocObject_contract {σ : Type} (intBits : Nat)
    (f : Extern σ) (hf : Implements intBits swift_allocObject f)
    (s : σ) (type : PtrVal) (requiredSize requiredAlignmentMask : Int)
    (hsize : INT_MIN intBits ≤ requiredSize ∧ requiredSize ≤ INT_MAX intBits)
    (hmask : INT_MIN intBits ≤ requiredAlignmentMask ∧
      requiredAlignmentMask ≤ INT_MAX intBits) :
    swift_allocObject.params.map Param.ty =
      [ CType.pointer CType.void true Nullability.nullable, CType.int, CType.int ] ∧
    swift_allocObject.ret = CType.pointer CType.void true Nullability.nullable ∧
    wellTyped intBits swift_allocObject
      [CValue.ptr type, CValue.int requiredSize, CValue.int requiredAlignmentMask]
        = true ∧
    ((f s [CValue.ptr type, CValue.int requiredSize,
        CValue.int requiredAlignmentMask]).1 = CValue.ptr PtrVal.null ∨
      ∃ a, (f s [CValue.ptr type, CValue.int requiredSize,
        CValue.int requiredAlignmentMask]).1 = CValue.ptr (PtrVal.addr a)) := by
  have hwt : wellTyped intBits swift_allocObject
      [CValue.ptr type, CValue.int requiredSize, CValue.int requiredAlignmentMask]
        = true := by
    cases type <;>
      simp [wellTyped, wellTypedArgs, swift_allocObject, hasType,
        constVoidPtrNullable, hsize, hmask]
  refine ⟨rfl, rfl, hwt, ?_⟩
  exact ptr_null_or_addr _
    ((hasType_nullablePointer intBits swift_allocObject.ret _ rfl).1 (hf s _ hwt))

/-- Witness for C3: on a 32-bit `int`, the definition that never answers null
respects the declaration, and the call with a null type descriptor, size 16
and mask 7 is well-typed and yields null or a pointer. -/
theorem swift_allocObject_contract_witness :
    wellTyped 32 swift_allocObject
      [CValue.ptr PtrVal.null, CValue.int 16, CValue.int 7] = true ∧
    ((nullExactlyWhen (fun (_ : Unit) _ => false) ()
        [CValue.ptr PtrVal.null, CValue.int 16, CValue.int 7]).1
          = CValue.ptr PtrVal.null ∨
      ∃ a, (nullExactlyWhen (fun (_ : Unit) _ => false) ()
        [CValue.ptr PtrVal.null, CValue.int 16, CValue.int 7]).1
          = CValue.ptr (PtrVal.addr a)) :=
  (swift_allocObject_contract 32
    (nullExactlyWhen (fun (_ : Unit) _ => false))
    (nullExactlyWhen_implements 32 swift_allocObject rfl _)
    () PtrVal.null 16 7 (by decide) (by decide)).2.2

/-- C4: both declarations return a nullable pointer, return no integer
status, and have no parameter through which a callee could write back. Any
external definition whose results are always null or a pointer respects both
declarations, and for every condition `nullWhen` on state and arguments some
definition respecting both answers null exactly under that condition: the
declarations fix no condition for a null result. -/
theorem failure_only_through_nullable_return {σ : Type} (intBits : Nat)
    (f : Extern σ)
    (hf : ∀ (s : σ) (args : List CValue), (f s args).1 = CValue.ptr PtrVal.null ∨
      ∃ a, (f s args).1 = CValue.ptr (PtrVal.addr a))
    (nullWhen : σ → List CValue → Bool) :
    cruntime_h.all (fun d => d.ret.isNullablePointer && !d.ret.isInteger &&
      d.params.all (fun p => !p.ty.writable)) = true ∧
    Implements intBits swift_getTypeByMangledNameInContext f ∧
    Implements intBits swift_allocObject f ∧
    ∃ g : Extern σ,
      Implements intBits swift_getTypeByMangledNameInContext g ∧
      Implements intBits swift_allocObject g ∧
      ∀ (s : σ) (args : List CValue),
        (g s args).1 = CValue.ptr PtrVal.null ↔ nullWhen s args = true := by
  have himp : ∀ d : FunDecl, d.ret.isNullablePointer = true → Implements intBits d f := by
    intro d hd s args _
    rw [hasType_nullablePointer intBits d.ret _ hd]
    rcases hf s args with h | ⟨a, h⟩ <;> exact ⟨_, h⟩
  refine ⟨rfl, himp _ rfl, himp _ rfl, nullExactlyWhen nullWhen,
    nullExactlyWhen_implements intBits swift_getTypeByMangledNameInContext rfl nullWhen,
    nullExactlyWhen_implements intBits swift_allocObject rfl nullWhen,
    nullExactlyWhen_null nullWhen⟩

/-- Witness for C4: the definition that answers null on an empty argument
list and pointer 1 otherwise respects both declarations on a 32-bit `int`. -/
theorem failure_only_through_nullable_return_witness :
    Implements 32 swift_getTypeByMangledNameInContext
      (fun (s : Unit) args => (if args.isEmpty then CValue.ptr PtrVal.null
        else CValue.ptr (PtrVal.addr 1), s)) ∧
    Implements 32 swift_allocObject
      (fun (s : Unit) args => (if args.isEmpty then CValue.ptr PtrVal.null
        else CValue.ptr (PtrVal.addr 1), s)) :=
  have h := failure_only_through_nullable_return 32
    (fun (s : Unit) args => (if args.isEmpty then CValue.ptr PtrVal.null
      else CValue.ptr (PtrVal.addr 1), s))
    (fun _ args => by cases args <;> simp)
    (fun _ _ => false)
  ⟨h.2.1, h.2.2.1⟩

/-- C5: `typeNameLength`, `requiredSize` and `requiredAlignmentMask` are
declared `int`. The negative value `-1` is accepted in each of the three
positions, whatever the pointer arguments, while a value `big` above
`INT_MAX` is rejected in each of them, whatever the other arguments. -/
theorem int_parameters_admit_negative_values (intBits : Nat) (big : Int)
    (hbig : INT_MAX intBits < big) :
    swift_getTypeByMangledNameInContext.paramType "typeNameLength" = some CType.int ∧
    swift_allocObject.paramType "requiredSize" = some CType.int ∧
    swift_allocObject.paramType "requiredAlignmentMask" = some CType.int ∧
    (∃ n : Int, n < 0 ∧ ∀ p q r : PtrVal,
      wellTyped intBits swift_getTypeByMangledNameInContext
        [CValue.ptr p, CValue.int n, CValue.ptr q, CValue.ptr r] = true ∧
      wellTyped intBits swift_allocObject
        [CValue.ptr p, CValue.int n, CValue.int 0] = true ∧
      wellTyped intBits swift_allocObject
        [CValue.ptr p, CValue.int 0, CValue.int n] = true ∧
      wellTyped intBits swift_allocObject
        [CValue.ptr p, CValue.int n, CValue.int n] = true) ∧
    (∀ (p q r : PtrVal) (m : Int),
      wellTyped intBits swift_getTypeByMangledNameInContext
        [CValue.ptr p, CValue.int big, CValue.ptr q, CValue.ptr r] = false ∧
      wellTyped intBits swift_allocObject
        [CValue.ptr p, CValue.int big, CValue.int m] = false ∧
      wellTyped intBits swift_allocObject
        [CValue.ptr p, CValue.int m, CValue.int big] = false) := by
  have hmin := INT_MIN_neg intBits
  have hmax := INT_MAX_nonneg intBits
  refine ⟨by decide, by decide, by decide, ⟨-1, by decide, ?_⟩, ?_⟩
  · intro p q r
    have h0 : INT_MIN intBits ≤ 0 := by omega
    have h1 : (-1 : Int) ≤ INT_MAX intBits := by omega
    cases p <;> cases q <;> cases r <;>
      simp [wellTyped, wellTypedArgs, swift_getTypeByMangledNameInContext,
        swift_allocObject, hasType, constCharPtrNullable, constVoidPtrNullable,
        constVoidPtrNullableConstPtrNullable, hmin, hmax, h0, h1]
  · intro p q r m
    cases p <;> cases q <;> cases r <;>
      simp [wellTyped, wellTypedArgs, swift_getTypeByMangledNameInContext,
        swift_allocObject, hasType, constCharPtrNullable, constVoidPtrNullable,
        constVoidPtrNullableConstPtrNullable, hbig]

/-- Witness for C5: on a 32-bit `int`, 2147483648 lies above `INT_MAX` and is
rejected as `requiredSize`, next to a null type descriptor and mask 7. -/
theorem int_parameters_admit_negative_values_witness :
    INT_MAX 32 < 2147483648 ∧
    wellTyped 32 swift_allocObject
      [CValue.ptr PtrVal.null, CValue.int 2147483648, CValue.int 7] = false :=
  ⟨by decide,
    ((int_parameters_admit_negative_values 32 2147483648 (by decide)).2.2.2.2
      PtrVal.null PtrVal.null PtrVal.null 7).2.1⟩

end NovaCRT
